import Mathlib

/-!
# Verification of the tokonomics model registry and cost-calculation core

Shallow embedding of the registry / cost-calculation core of the
`tokonomics` repository.  Python `Decimal` values are modelled as exact
rationals (`ℚ`); `None`-able fields become `Option`; dictionaries become
insertion-ordered association lists with unique keys (Python `dict`
semantics).
-/

namespace Tokonomics

/-- Pricing record for chat models.
Embeds `ChatPricing` from `src/tokonomics/models/chat_model.py`
(all `Decimal | None` fields become `Option ℚ`). -/
structure ChatPricing where
  input_cost_per_token : Option ℚ := none
  output_cost_per_token : Option ℚ := none
  output_cost_per_reasoning_token : Option ℚ := none
  input_cost_above_128k : Option ℚ := none
  output_cost_above_128k : Option ℚ := none
  input_cost_above_200k : Option ℚ := none
  output_cost_above_200k : Option ℚ := none
  input_cost_priority : Option ℚ := none
  output_cost_priority : Option ℚ := none
  input_cost_flex : Option ℚ := none
  output_cost_flex : Option ℚ := none
  input_cost_per_image : Option ℚ := none
  input_cost_per_audio_second : Option ℚ := none
  input_cost_per_video_second : Option ℚ := none
  deriving DecidableEq

/-- Input-side rate selection of `ChatPricing.calculate_cost`
(chat_model.py lines 84-89): descending strict thresholds on
`input_tokens`, falling back to the standard input rate. -/
def selectInputRate (p : ChatPricing) (input_tokens : ℕ) : Option ℚ :=
  if 200000 < input_tokens ∧ p.input_cost_above_200k.isSome then
    p.input_cost_above_200k
  else if 128000 < input_tokens ∧ p.input_cost_above_128k.isSome then
    p.input_cost_above_128k
  else
    p.input_cost_per_token

/-- Output-side rate selection of `ChatPricing.calculate_cost`
(chat_model.py lines 96-101): the threshold tests are on `input_tokens`. -/
def selectOutputRate (p : ChatPricing) (input_tokens : ℕ) : Option ℚ :=
  if 200000 < input_tokens ∧ p.output_cost_above_200k.isSome then
    p.output_cost_above_200k
  else if 128000 < input_tokens ∧ p.output_cost_above_128k.isSome then
    p.output_cost_above_128k
  else
    p.output_cost_per_token

/-- `ChatPricing.calculate_cost` (chat_model.py lines 64-106).
Returns `none` ("pricing unavailable") when both standard rates are `None`;
otherwise accumulates `rate * tokens` for each side whose token count is
positive and whose selected rate is present. -/
def calculate_cost (p : ChatPricing) (input_tokens : ℕ)
    (output_tokens : ℕ := 0) : Option ℚ :=
  if p.input_cost_per_token = none ∧ p.output_cost_per_token = none then
    none
  else
    let inputPart : ℚ :=
      if 0 < input_tokens then
        match selectInputRate p input_tokens with
        | some input_cost => input_cost * input_tokens
        | none => 0
      else 0
    let outputPart : ℚ :=
      if 0 < output_tokens then
        match selectOutputRate p input_tokens with
        | some output_cost => output_cost * output_tokens
        | none => 0
      else 0
    some (inputPart + outputPart)

end Tokonomics

namespace Tokonomics

/-! ## Registry import and queries (`src/tokonomics/registry.py`) -/

/-- A raw attribute value in the source mapping: a JSON number or a
string (cost fields may arrive as numbers or numeric-looking strings). -/
inductive RawValue where
  | num (q : ℚ)
  | str (s : String)
  deriving DecidableEq

/-- A raw registry entry (one attribute dictionary of the input mapping):
the optional `mode` discriminator (`none` when the `"mode"` key is
absent), the remaining attribute fields, and the provider tag. -/
structure RawEntry where
  mode : Option String := none
  fields : List (String × RawValue) := []
  litellm_provider : String := ""
  deriving DecidableEq

/-- Value of a decimal digit character, `none` for non-digits. -/
def charDigit (c : Char) : Option ℕ :=
  if c.isDigit then some (c.toNat - 48) else none

/-- Value of a nonempty all-digit character list, `none` otherwise. -/
def digitsVal (cs : List Char) : Option ℕ :=
  match cs with
  | [] => none
  | _ => cs.foldlM (fun acc c => (charDigit c).map (fun d => acc * 10 + d)) 0

/-- Modelled from the spec: parsing of a "numeric-looking string" into an
exact decimal value (`[sign] digits [. digits]`); the concrete parser
lives in the pydantic `Decimal` validation of the `data_models` module,
which is not under `src/`. -/
def parseDecimalString (s : String) : Option ℚ :=
  let cs := s.toList
  let signed : ℚ × List Char :=
    match cs with
    | '-' :: rest => (-1, rest)
    | '+' :: rest => (1, rest)
    | other => (1, other)
  let intPart := signed.2.takeWhile (fun c => c ≠ '.')
  match signed.2.dropWhile (fun c => c ≠ '.') with
  | [] => (digitsVal intPart).map (fun v => signed.1 * v)
  | _ :: frac =>
    match digitsVal intPart, digitsVal frac with
    | some i, some f =>
        some (signed.1 * ((i : ℚ) + (f : ℚ) / (10 ^ frac.length)))
    | _, _ => none

/-- Coercion of a raw value to a decimal: numbers pass through, strings
must be numeric-looking; anything else is a parse failure. -/
def parseRawDecimal : RawValue → Option ℚ
  | .num q => some q
  | .str s => parseDecimalString s

/-- Reads an optional decimal field of a raw entry: absent fields are
fine (`ok none`), present non-numeric values are a validation error. -/
def getDecimalField (e : RawEntry) (key : String) : Except String (Option ℚ) :=
  match e.fields.lookup key with
  | none => .ok none
  | some v =>
    match parseRawDecimal v with
    | some q => .ok (some q)
    | none => .error ("unable to parse field " ++ key ++ " as a decimal")

/-- Modelled from the spec: the `ChatCompletionModel` variant of the
`data_models` module (not under `src/`), restricted to the fields the
registry queries consult. -/
structure ChatCompletionModel where
  mode : String
  litellm_provider : String
  input_cost_per_token : Option ℚ := none
  output_cost_per_token : Option ℚ := none
  deriving DecidableEq

/-- Modelled from the spec: the `EmbeddingModel` variant (input cost per
token only, no output cost). -/
structure EmbeddingModel where
  mode : String
  litellm_provider : String
  input_cost_per_token : Option ℚ := none
  deriving DecidableEq

/-- Modelled from the spec: the `AudioTranscriptionModel` variant (input
cost per second of audio rather than per token). -/
structure AudioTranscriptionModel where
  mode : String
  litellm_provider : String
  input_cost_per_second : Option ℚ := none
  deriving DecidableEq

/-- Modelled from the spec: the `ResponsesModel` variant (token-priced
like chat). -/
structure ResponsesModel where
  mode : String
  litellm_provider : String
  input_cost_per_token : Option ℚ := none
  output_cost_per_token : Option ℚ := none
  deriving DecidableEq

/-- Modelled from the spec: shared shape of the remaining variants
(audio-speech, image/video generation, rerank, moderation), whose
mode-specific cost units play no role in the registry queries. -/
structure BasicModel where
  mode : String
  litellm_provider : String
  deriving DecidableEq

/-- The `ModelConfig` union: one case per model mode. -/
inductive ModelConfig where
  | chatCompletion (m : ChatCompletionModel)
  | embedding (m : EmbeddingModel)
  | audioTranscription (m : AudioTranscriptionModel)
  | audioSpeech (m : BasicModel)
  | imageGeneration (m : BasicModel)
  | videoGeneration (m : BasicModel)
  | rerank (m : BasicModel)
  | responses (m : ResponsesModel)
  | moderation (m : BasicModel)
  deriving DecidableEq

/-- The `mode` string each variant stores. -/
def ModelConfig.mode : ModelConfig → String
  | .chatCompletion m => m.mode
  | .embedding m => m.mode
  | .audioTranscription m => m.mode
  | .audioSpeech m => m.mode
  | .imageGeneration m => m.mode
  | .videoGeneration m => m.mode
  | .rerank m => m.mode
  | .responses m => m.mode
  | .moderation m => m.mode

/-- Modelled from the spec: `ChatCompletionModel.model_validate` —
required fields present and numeric-coercible, a present non-numeric
cost field fails the whole entry. -/
def ChatCompletionModel.model_validate (mode : String) (e : RawEntry) :
    Except String ChatCompletionModel := do
  let ic ← getDecimalField e "input_cost_per_token"
  let oc ← getDecimalField e "output_cost_per_token"
  .ok { mode := mode, litellm_provider := e.litellm_provider,
        input_cost_per_token := ic, output_cost_per_token := oc }

/-- Modelled from the spec: `EmbeddingModel.model_validate`. -/
def EmbeddingModel.model_validate (mode : String) (e : RawEntry) :
    Except String EmbeddingModel := do
  let ic ← getDecimalField e "input_cost_per_token"
  .ok { mode := mode, litellm_provider := e.litellm_provider,
        input_cost_per_token := ic }

/-- Modelled from the spec: `AudioTranscriptionModel.model_validate`. -/
def AudioTranscriptionModel.model_validate (mode : String) (e : RawEntry) :
    Except String AudioTranscriptionModel := do
  let ic ← getDecimalField e "input_cost_per_second"
  .ok { mode := mode, litellm_provider := e.litellm_provider,
        input_cost_per_second := ic }

/-- Modelled from the spec: `ResponsesModel.model_validate`. -/
def ResponsesModel.model_validate (mode : String) (e : RawEntry) :
    Except String ResponsesModel := do
  let ic ← getDecimalField e "input_cost_per_token"
  let oc ← getDecimalField e "output_cost_per_token"
  .ok { mode := mode, litellm_provider := e.litellm_provider,
        input_cost_per_token := ic, output_cost_per_token := oc }

/-- Modelled from the spec: validation of the remaining variants, whose
mode-specific fields the claims never consult. -/
def BasicModel.model_validate (mode : String) (e : RawEntry) :
    Except String BasicModel :=
  .ok { mode := mode, litellm_provider := e.litellm_provider }

/-- The mode-discrimination dispatch of `ModelRegistry.from_dict`
(registry.py lines 117-139): chat/completion, the seven specific modes,
and the permissive default of chat for an unrecognized mode. -/
def validateByMode (mode : String) (e : RawEntry) : Except String ModelConfig :=
  if mode = "chat" ∨ mode = "completion" then
    (ChatCompletionModel.model_validate mode e).map .chatCompletion
  else if mode = "embedding" then
    (EmbeddingModel.model_validate mode e).map .embedding
  else if mode = "audio_transcription" then
    (AudioTranscriptionModel.model_validate mode e).map .audioTranscription
  else if mode = "audio_speech" then
    (BasicModel.model_validate mode e).map .audioSpeech
  else if mode = "image_generation" then
    (BasicModel.model_validate mode e).map .imageGeneration
  else if mode = "video_generation" then
    (BasicModel.model_validate mode e).map .videoGeneration
  else if mode = "rerank" then
    (BasicModel.model_validate mode e).map .rerank
  else if mode = "responses" then
    (ResponsesModel.model_validate mode e).map .responses
  else if mode = "moderation" then
    (BasicModel.model_validate mode e).map .moderation
  else
    (ChatCompletionModel.model_validate mode e).map .chatCompletion

/-- Validation of one raw entry, dispatching on its `mode` string (in
the `from_dict` loop the mode is always present; the `"chat"` default
mirrors `load_model_config`). -/
def validateEntry (e : RawEntry) : Except String ModelConfig :=
  validateByMode (e.mode.getD "chat") e

/-- Python `dict.get` on an insertion-ordered association list: the
value stored under an exactly matching key, else `None`. -/
def dictGet {α : Type} (l : List (String × α)) (k : String) : Option α :=
  match l with
  | [] => none
  | (k', v) :: t => if k' = k then some v else dictGet t k

/-- Python-`dict` assignment on an insertion-ordered association list:
updating an existing key in place, appending a new one. -/
def dictInsert {α : Type} (l : List (String × α)) (k : String) (v : α) :
    List (String × α) :=
  if l.any (fun p => p.1 = k) then
    l.map (fun p => if p.1 = k then (k, v) else p)
  else l ++ [(k, v)]

/-- The import loop of `ModelRegistry.from_dict` (registry.py lines
109-147): skip entries without a `mode` or named `sample_spec`
(accumulated in `dropped`), validate the rest, catching a failure into
`failed` and continuing. -/
def from_dict_go (models : List (String × ModelConfig))
    (failed : List (String × String)) (dropped : List String) :
    List (String × RawEntry) →
      List (String × ModelConfig) × List (String × String) × List String
  | [] => (models, failed, dropped)
  | (name, config_data) :: rest =>
    if config_data.mode = none ∨ name = "sample_spec" then
      from_dict_go models failed (dropped ++ [name]) rest
    else
      match validateEntry config_data with
      | .ok model_config =>
          from_dict_go (dictInsert models name model_config) failed dropped rest
      | .error e =>
          from_dict_go models (failed ++ [(name, e)]) dropped rest

/-- The model registry: an insertion-ordered name → config mapping. -/
structure ModelRegistry where
  models : List (String × ModelConfig)
  deriving DecidableEq

/-- `ModelRegistry.from_dict`: the registry built from a raw mapping. -/
def ModelRegistry.from_dict (data : List (String × RawEntry)) : ModelRegistry :=
  ⟨(from_dict_go [] [] [] data).1⟩

/-- The failure list `failed_models` accumulated by `from_dict`. -/
def from_dict_failed (data : List (String × RawEntry)) :
    List (String × String) :=
  (from_dict_go [] [] [] data).2.1

/-- The skip list `dropped_models` accumulated by `from_dict`. -/
def from_dict_dropped (data : List (String × RawEntry)) : List String :=
  (from_dict_go [] [] [] data).2.2

/-- `ModelRegistry.get_model` (registry.py lines 38-40): a plain
dictionary `get` on the stored name. -/
def ModelRegistry.get_model (r : ModelRegistry) (name : String) :
    Option ModelConfig :=
  dictGet r.models name

/-- `ModelRegistry.get_models_by_mode` (registry.py lines 50-54). -/
def ModelRegistry.get_models_by_mode (r : ModelRegistry) (mode : String) :
    List (String × ModelConfig) :=
  r.models.filter (fun p => p.2.mode = mode)

/-- The comparison key `get_cost` of `get_cheapest_model_by_mode`
(registry.py lines 85-97): `input_cost_per_token` for token-priced
variants, `input_cost_per_second` for transcription, and `none` standing
for `Decimal("inf")` (no comparable cost). -/
def get_cost : ModelConfig → Option ℚ
  | .chatCompletion m => m.input_cost_per_token
  | .embedding m => m.input_cost_per_token
  | .responses m => m.input_cost_per_token
  | .audioTranscription m => m.input_cost_per_second
  | _ => none

/-- Strict order on comparison keys: any finite cost beats the absent
(`Decimal("inf")`) key, absent beats nothing. -/
def costLt : Option ℚ → Option ℚ → Bool
  | some a, some b => decide (a < b)
  | some _, none => true
  | none, _ => false

/-- One comparison step of Python `min(items, key=get_cost)`: the
candidate replaces the current best only on a strictly smaller key. -/
def minStep (best y : String × ModelConfig) : String × ModelConfig :=
  if costLt (get_cost y.2) (get_cost best.2) then y else best

/-- Python `min(items, key=get_cost)`: the first element of minimal key
(replacement only on a strictly smaller key), `none` on an empty list. -/
def minByCost (l : List (String × ModelConfig)) :
    Option (String × ModelConfig) :=
  match l with
  | [] => none
  | x :: xs => some (xs.foldl minStep x)

/-- `ModelRegistry.get_cheapest_model_by_mode` (registry.py lines
76-100): `None` when no model has the mode, else the minimum of the
candidates under the `get_cost` key. -/
def ModelRegistry.get_cheapest_model_by_mode (r : ModelRegistry)
    (mode : String) : Option (String × ModelConfig) :=
  minByCost (r.get_models_by_mode mode)

/-! ## Discovery aggregator (`src/tokonomics/model_discovery/__init__.py`) -/

/-- `ModelPricing` from `model_discovery/base.py`. -/
structure ModelPricing where
  prompt : Option ℚ := none
  completion : Option ℚ := none
  deriving DecidableEq

/-- `ModelInfo` from `model_discovery/base.py`. -/
structure ModelInfo where
  id : String
  name : String
  provider : String
  description : Option String := none
  pricing : Option ModelPricing := none
  owned_by : Option String := none
  context_window : Option ℕ := none
  is_deprecated : Bool := false
  deriving DecidableEq

/-- The inner `fetch_provider_models` of `get_all_models`
(model_discovery/__init__.py lines 129-142): a provider whose
construction or fetch raises yields `None`; a successful fetch yields its
model list, with deprecated models filtered out unless requested.  The
provider's outcome (the awaited `provider.get_models()` call, external
I/O) is given as an `Except` value. -/
def fetch_provider_models (include_deprecated : Bool)
    (outcome : Except String (List ModelInfo)) : Option (List ModelInfo) :=
  match outcome with
  | .error _ => none
  | .ok models =>
    some (if include_deprecated then models
          else models.filter (fun model => !model.is_deprecated))

/-- One step of the merge loop of `get_all_models`
(model_discovery/__init__.py lines 151-153): append every non-`None`,
non-empty result (`if provider_models:` is Python truthiness). -/
def mergeStep (all_models : List ModelInfo) (r : Option (List ModelInfo)) :
    List ModelInfo :=
  match r with
  | some provider_models =>
      if provider_models.isEmpty then all_models
      else all_models ++ provider_models
  | none => all_models

/-- `get_all_models` (model_discovery/__init__.py lines 112-155):
`asyncio.gather` returns the per-provider results in the order the
providers were selected; the merge loop combines them in that order. -/
def get_all_models (include_deprecated : Bool)
    (outcomes : List (Except String (List ModelInfo))) : List ModelInfo :=
  (outcomes.map (fetch_provider_models include_deprecated)).foldl mergeStep []

/-! ## Concrete records used in scenarios -/

/-- A raw entry whose cost field holds a non-numeric placeholder string:
its variant validation fails. -/
def demoBroken : RawEntry :=
  { mode := some "chat",
    fields := [("input_cost_per_token", .str "contact sales")],
    litellm_provider := "openai" }

/-- A fully valid raw chat entry. -/
def demoValid : RawEntry :=
  { mode := some "chat",
    fields := [("input_cost_per_token", .num 3),
               ("output_cost_per_token", .num 6)],
    litellm_provider := "openai" }

/-- The parsed form of `demoValid`. -/
def demoValidConfig : ModelConfig :=
  .chatCompletion
    { mode := "chat", litellm_provider := "openai",
      input_cost_per_token := some 3, output_cost_per_token := some 6 }

/-- A stored chat model used for case-sensitivity lookups. -/
def gpt4Config : ModelConfig :=
  .chatCompletion
    { mode := "chat", litellm_provider := "openai",
      input_cost_per_token := some 3, output_cost_per_token := some 6 }

/-- A chat record with no comparable cost field. -/
def noCostModelC : ModelConfig :=
  .chatCompletion { mode := "chat", litellm_provider := "p1" }

/-- A second chat record with no comparable cost field. -/
def noCostModelD : ModelConfig :=
  .chatCompletion { mode := "chat", litellm_provider := "p2" }

/-- Chat record with input cost 0.01. -/
def costModelA : ModelConfig :=
  .chatCompletion
    { mode := "chat", litellm_provider := "p",
      input_cost_per_token := some (1 / 100) }

/-- Chat record with input cost 0.005. -/
def costModelB : ModelConfig :=
  .chatCompletion
    { mode := "chat", litellm_provider := "p",
      input_cost_per_token := some (5 / 1000) }

/-! ## Helper lemmas -/

/-- Key-preserving in-place update leaves other keys' lookups intact. -/
theorem dictGet_replace_ne {α : Type} (l : List (String × α))
    (k name : String) (v : α) (h : k ≠ name) :
    dictGet (l.map (fun p => if p.1 = k then (k, v) else p)) name =
      dictGet l name := by
  induction l with
  | nil => rfl
  | cons p t ih =>
    obtain ⟨a, b⟩ := p
    by_cases hp : a = k
    · subst hp
      have hhd : (if (a, b).1 = a then (a, v) else (a, b)) = (a, v) := by simp
      rw [List.map_cons, hhd]
      simp only [dictGet]
      rw [if_neg h, if_neg h]
      exact ih
    · have hhd : (if (a, b).1 = k then (k, v) else (a, b)) = (a, b) := by
        simp [hp]
      rw [List.map_cons, hhd]
      simp only [dictGet]
      by_cases ha : a = name
      · rw [if_pos ha, if_pos ha]
      · rw [if_neg ha, if_neg ha]; exact ih

/-- Appending a fresh key leaves other keys' lookups intact. -/
theorem dictGet_append_ne {α : Type} (l : List (String × α))
    (k name : String) (v : α) (h : k ≠ name) :
    dictGet (l ++ [(k, v)]) name = dictGet l name := by
  induction l with
  | nil => simp [dictGet, if_neg h]
  | cons p t ih =>
    obtain ⟨a, b⟩ := p
    simp only [List.cons_append, dictGet]
    by_cases ha : a = name
    · rw [if_pos ha, if_pos ha]
    · rw [if_neg ha, if_neg ha]; exact ih

/-- `dictInsert` at key `k` does not change the lookup of another key. -/
theorem dictInsert_get_ne {α : Type} (l : List (String × α))
    (k name : String) (v : α) (h : k ≠ name) :
    dictGet (dictInsert l k v) name = dictGet l name := by
  unfold dictInsert
  split
  · exact dictGet_replace_ne l k name v h
  · exact dictGet_append_ne l k name v h

/-- A key absent from the key list looks up to `none`. -/
theorem dictGet_eq_none_of_keys {α : Type} (l : List (String × α))
    (name : String) (h : ∀ k ∈ l.map Prod.fst, k ≠ name) :
    dictGet l name = none := by
  induction l with
  | nil => rfl
  | cons p t ih =>
    obtain ⟨a, b⟩ := p
    simp only [dictGet]
    rw [if_neg (h a (by simp))]
    exact ih (fun k hk => h k (by simp [hk]))

/-- Entries already in the failure accumulator survive the import loop. -/
theorem from_dict_go_failed_mono :
    ∀ (l : List (String × RawEntry)) (ms : List (String × ModelConfig))
      (fs : List (String × String)) (ds : List String)
      (x : String × String), x ∈ fs → x ∈ (from_dict_go ms fs ds l).2.1 := by
  intro l
  induction l with
  | nil => intro ms fs ds x hx; simpa [from_dict_go] using hx
  | cons hd t ih =>
    obtain ⟨n, e⟩ := hd
    intro ms fs ds x hx
    simp only [from_dict_go]
    by_cases hskip : (e.mode = none ∨ n = "sample_spec")
    · rw [if_pos hskip]; exact ih ms fs _ x hx
    · rw [if_neg hskip]
      rcases hv : validateEntry e with msg | mc
      · exact ih ms (fs ++ [(n, msg)]) ds x (List.mem_append_left _ hx)
      · exact ih (dictInsert ms n mc) fs ds x hx

/-- Entries already in the drop accumulator survive the import loop. -/
theorem from_dict_go_dropped_mono :
    ∀ (l : List (String × RawEntry)) (ms : List (String × ModelConfig))
      (fs : List (String × String)) (ds : List String)
      (x : String), x ∈ ds → x ∈ (from_dict_go ms fs ds l).2.2 := by
  intro l
  induction l with
  | nil => intro ms fs ds x hx; simpa [from_dict_go] using hx
  | cons hd t ih =>
    obtain ⟨n, e⟩ := hd
    intro ms fs ds x hx
    simp only [from_dict_go]
    by_cases hskip : (e.mode = none ∨ n = "sample_spec")
    · rw [if_pos hskip]
      exact ih ms fs _ x (List.mem_append_left _ hx)
    · rw [if_neg hskip]
      rcases hv : validateEntry e with msg | mc
      · exact ih ms (fs ++ [(n, msg)]) ds x hx
      · exact ih (dictInsert ms n mc) fs ds x hx

/-- A name all of whose entries are skipped or fail validation is never
inserted into the model map by the import loop. -/
theorem from_dict_go_models_none (name : String) :
    ∀ (l : List (String × RawEntry)),
      (∀ e, (name, e) ∈ l →
        e.mode = none ∨ name = "sample_spec" ∨
          ∃ msg, validateEntry e = .error msg) →
      ∀ ms fs ds, dictGet ms name = none →
        dictGet (from_dict_go ms fs ds l).1 name = none := by
  intro l
  induction l with
  | nil => intro _ ms fs ds hms; simpa [from_dict_go] using hms
  | cons hd t ih =>
    obtain ⟨n, e⟩ := hd
    intro hl ms fs ds hms
    have ht : ∀ e', (name, e') ∈ t →
        e'.mode = none ∨ name = "sample_spec" ∨
          ∃ msg, validateEntry e' = .error msg :=
      fun e' he' => hl e' (List.mem_cons_of_mem _ he')
    simp only [from_dict_go]
    by_cases hskip : (e.mode = none ∨ n = "sample_spec")
    · rw [if_pos hskip]; exact ih ht ms fs _ hms
    · rw [if_neg hskip]
      rcases hv : validateEntry e with msg | mc
      · exact ih ht ms (fs ++ [(n, msg)]) ds hms
      · apply ih ht
        by_cases hn : n = name
        · subst hn
          rcases hl e (List.mem_cons_self _ _) with hm | hs | ⟨msg, hmsg⟩
          · exact absurd (Or.inl hm) hskip
          · exact absurd (Or.inr hs) hskip
          · rw [hmsg] at hv; exact Except.noConfusion hv
        · rw [dictInsert_get_ne ms n name mc hn]; exact hms

/-- A non-skipped entry whose validation fails is recorded, with its
name and reason, in the failure list produced by the import loop. -/
theorem from_dict_go_failed_mem (name : String) (e : RawEntry)
    (msg : String)
    (hnotskip : ¬(e.mode = none ∨ name = "sample_spec"))
    (hfail : validateEntry e = .error msg) :
    ∀ (l : List (String × RawEntry)), (name, e) ∈ l →
      ∀ ms fs ds, (name, msg) ∈ (from_dict_go ms fs ds l).2.1 := by
  intro l
  induction l with
  | nil => intro h; cases h
  | cons hd t ih =>
    obtain ⟨n, e'⟩ := hd
    intro hmem ms fs ds
    simp only [from_dict_go]
    rcases List.mem_cons.mp hmem with heq | hmem'
    · injection heq with h1 h2
      subst h1; subst h2
      rw [if_neg hnotskip, hfail]
      exact from_dict_go_failed_mono t ms (fs ++ [(name, msg)]) ds _ (by simp)
    · by_cases hskip : (e'.mode = none ∨ n = "sample_spec")
      · rw [if_pos hskip]; exact ih hmem' ms fs _
      · rw [if_neg hskip]
        rcases hv : validateEntry e' with msg' | mc
        · exact ih hmem' ms (fs ++ [(n, msg')]) ds
        · exact ih hmem' (dictInsert ms n mc) fs ds

/-- A name all of whose entries are skipped never reaches the failure
list of the import loop. -/
theorem from_dict_go_failed_names (name : String) :
    ∀ (l : List (String × RawEntry)),
      (∀ e, (name, e) ∈ l → (e.mode = none ∨ name = "sample_spec")) →
      ∀ ms fs ds, name ∉ fs.map Prod.fst →
        name ∉ ((from_dict_go ms fs ds l).2.1).map Prod.fst := by
  intro l
  induction l with
  | nil => intro _ ms fs ds h; simpa [from_dict_go] using h
  | cons hd t ih =>
    obtain ⟨n, e⟩ := hd
    intro hl ms fs ds hfs
    have ht : ∀ e', (name, e') ∈ t → (e'.mode = none ∨ name = "sample_spec") :=
      fun e' he' => hl e' (List.mem_cons_of_mem _ he')
    simp only [from_dict_go]
    by_cases hskip : (e.mode = none ∨ n = "sample_spec")
    · rw [if_pos hskip]; exact ih ht ms fs _ hfs
    · rw [if_neg hskip]
      rcases hv : validateEntry e with msg | mc
      · refine ih ht ms (fs ++ [(n, msg)]) ds ?_
        intro hmem
        rcases (by simpa using hmem : name ∈ fs.map Prod.fst ∨ name = n) with h | h
        · exact hfs h
        · subst h
          exact hskip (hl e (List.mem_cons_self _ _))
      · exact ih ht (dictInsert ms n mc) fs ds hfs

/-- A skipped entry's name reaches the drop list of the import loop. -/
theorem from_dict_go_dropped_mem (name : String) (e : RawEntry)
    (hskip : e.mode = none ∨ name = "sample_spec") :
    ∀ (l : List (String × RawEntry)), (name, e) ∈ l →
      ∀ ms fs ds, name ∈ (from_dict_go ms fs ds l).2.2 := by
  intro l
  induction l with
  | nil => intro h; cases h
  | cons hd t ih =>
    obtain ⟨n, e'⟩ := hd
    intro hmem ms fs ds
    simp only [from_dict_go]
    rcases List.mem_cons.mp hmem with heq | hmem'
    · injection heq with h1 h2
      subst h1; subst h2
      rw [if_pos hskip]
      exact from_dict_go_dropped_mono t ms fs (ds ++ [name]) _ (by simp)
    · by_cases hskip' : (e'.mode = none ∨ n = "sample_spec")
      · rw [if_pos hskip']; exact ih hmem' ms fs _
      · rw [if_neg hskip']
        rcases hv : validateEntry e' with msg' | mc
        · exact ih hmem' ms (fs ++ [(n, msg')]) ds
        · exact ih hmem' (dictInsert ms n mc) fs ds

/-- The comparison key order is irreflexive. -/
theorem costLt_irrefl (a : Option ℚ) : costLt a a = false := by
  cases a <;> simp [costLt]

/-- The comparison key order is transitive. -/
theorem costLt_trans {a b c : Option ℚ} (h1 : costLt a b = true)
    (h2 : costLt b c = true) : costLt a c = true := by
  cases a <;> cases b <;> cases c <;> simp_all [costLt]
  exact lt_trans h1 h2

/-- The Python `min` fold returns its seed or a list element. -/
theorem foldl_minStep_mem (xs : List (String × ModelConfig)) :
    ∀ acc, xs.foldl minStep acc = acc ∨ xs.foldl minStep acc ∈ xs := by
  induction xs with
  | nil => intro acc; left; rfl
  | cons y t ih =>
    intro acc
    rw [List.foldl_cons]
    have hstep : minStep acc y = y ∨ minStep acc y = acc := by
      unfold minStep; split
      · exact Or.inl rfl
      · exact Or.inr rfl
    rcases ih (minStep acc y) with h | h
    · rw [h]
      rcases hstep with h' | h'
      · right; rw [h']; exact List.mem_cons_self _ _
      · left; exact h'
    · right; exact List.mem_cons_of_mem _ h

/-- An element the seed already beats stays beaten by the fold result. -/
theorem foldl_minStep_le (xs : List (String × ModelConfig)) :
    ∀ (acc z : String × ModelConfig),
      costLt (get_cost z.2) (get_cost acc.2) = false →
      costLt (get_cost z.2) (get_cost (xs.foldl minStep acc).2) = false := by
  induction xs with
  | nil => intro acc z h; simpa using h
  | cons y t ih =>
    intro acc z h
    rw [List.foldl_cons]
    apply ih
    unfold minStep
    split
    · next hlt =>
      cases hb : costLt (get_cost z.2) (get_cost y.2)
      · rfl
      · have := costLt_trans hb hlt
        rw [this] at h
        exact absurd h (by simp)
    · exact h

/-- No list element strictly beats the fold result. -/
theorem foldl_minStep_not_beaten (xs : List (String × ModelConfig)) :
    ∀ (acc y : String × ModelConfig), y ∈ xs →
      costLt (get_cost y.2) (get_cost (xs.foldl minStep acc).2) = false := by
  induction xs with
  | nil => intro acc y h; cases h
  | cons hd t ih =>
    intro acc y hy
    rw [List.foldl_cons]
    rcases List.mem_cons.mp hy with rfl | hmem
    · apply foldl_minStep_le
      unfold minStep
      split
      · exact costLt_irrefl _
      · next hc =>
        simpa using hc
    · exact ih (minStep acc hd) y hmem

/-- The merge fold of the aggregator concatenates the successful,
non-`None` results onto the accumulator. -/
theorem aggregate_foldl_eq (l : List (Option (List ModelInfo))) :
    ∀ acc, l.foldl mergeStep acc = acc ++ (l.filterMap id).flatten := by
  induction l with
  | nil => intro acc; simp
  | cons o t ih =>
    intro acc
    rw [List.foldl_cons]
    cases o with
    | none => simp only [List.filterMap_cons]; exact ih acc
    | some ms =>
      have hstep : mergeStep acc (some ms) = acc ++ ms := by
        unfold mergeStep
        cases ms
        · simp
        · simp
      rw [hstep, ih (acc ++ ms)]
      simp [List.filterMap_cons, List.append_assoc]

/-! ## Claim theorems -/

/-- **C1** For every chat pricing record with only the standard input and
output rates set (no contextual-threshold rates), `calculate_cost n m`
equals `n * input_rate + m * output_rate`, exactly, in exact (decimal)
arithmetic. -/
theorem c1_standard_rates_linear (p : ChatPricing) (ri ro : ℚ)
    (hin : p.input_cost_per_token = some ri)
    (hout : p.output_cost_per_token = some ro)
    (h128i : p.input_cost_above_128k = none)
    (h200i : p.input_cost_above_200k = none)
    (h128o : p.output_cost_above_128k = none)
    (h200o : p.output_cost_above_200k = none)
    (n m : ℕ) :
    calculate_cost p n m = some (n * ri + m * ro) := by
  simp only [calculate_cost, selectInputRate, selectOutputRate, hin, hout,
    h128i, h200i, h128o, h200o, Option.isSome_none, Bool.false_eq_true,
    and_false, if_false, reduceCtorEq, false_and]
  rcases Nat.eq_zero_or_pos n with hn | hn
  · rcases Nat.eq_zero_or_pos m with hm | hm
    · simp [hn, hm]
    · simp [hn, hm, mul_comm]
  · rcases Nat.eq_zero_or_pos m with hm | hm
    · simp [hn, hm, mul_comm]
    · simp [hn, hm, mul_comm]

/-- Witness for C1: the spec's own scenario — rates 0.00003 and 0.00006,
`calculate_cost 10 20 = 0.0015`. -/
theorem c1_standard_rates_linear_witness :
    calculate_cost
      { input_cost_per_token := some (3 / 100000),
        output_cost_per_token := some (6 / 100000) } 10 20 =
      some (15 / 10000) := by
  have h := c1_standard_rates_linear
    { input_cost_per_token := some (3 / 100000),
      output_cost_per_token := some (6 / 100000) }
    (3 / 100000) (6 / 100000) rfl rfl rfl rfl rfl rfl 10 20
  rw [h]
  norm_num

/-- **C2** Input-side rate selection is evaluated in strict
descending-threshold order with strict `>` on `input_tokens`: above-200k
rate when `input_tokens > 200000` and defined, else above-128k rate when
`input_tokens > 128000` and defined, else the standard rate.  With an
above-128k rate defined, `input_tokens = 200000` is charged at the
above-128k rate while the boundary `input_tokens = 128000` is charged at
the standard rate; with an above-200k rate defined, `input_tokens =
250000` is charged at the above-200k rate. -/
theorem c2_input_rate_selection (p : ChatPricing) (ri r128 : ℚ)
    (hstd : p.input_cost_per_token = some ri)
    (h128 : p.input_cost_above_128k = some r128) :
    (∀ n, 200000 < n → p.input_cost_above_200k.isSome →
      selectInputRate p n = p.input_cost_above_200k) ∧
    (∀ n, 128000 < n → ¬(200000 < n ∧ p.input_cost_above_200k.isSome) →
      selectInputRate p n = some r128) ∧
    (∀ n, n ≤ 128000 → selectInputRate p n = some ri) ∧
    calculate_cost p 200000 0 = some (r128 * 200000) ∧
    calculate_cost p 128000 0 = some (ri * 128000) ∧
    (∀ r200, p.input_cost_above_200k = some r200 →
      calculate_cost p 250000 0 = some (r200 * 250000)) := by
  refine ⟨?_, ?_, ?_, ?_, ?_, ?_⟩
  · intro n hn hsome
    simp [selectInputRate, hn, hsome]
  · intro n hn hnot
    simp [selectInputRate, hnot, hn, h128]
  · intro n hn
    have h1 : ¬(200000 < n) := by omega
    have h2 : ¬(128000 < n) := by omega
    simp [selectInputRate, h1, h2, hstd]
  · simp [calculate_cost, selectInputRate, hstd, h128]
  · have h1 : ¬(200000 < 128000) := by omega
    have h2 : ¬(128000 < 128000) := by omega
    simp [calculate_cost, selectInputRate, hstd, h1, h2]
  · intro r200 h200
    simp [calculate_cost, selectInputRate, hstd, h200]

/-- Witness for C2 at a concrete record: standard rate 1, above-128k rate
2, above-200k rate 5. -/
theorem c2_input_rate_selection_witness :
    selectInputRate
      { input_cost_per_token := some 1, input_cost_above_128k := some 2,
        input_cost_above_200k := some 5 } 250000 = some 5 ∧
    calculate_cost
      { input_cost_per_token := some 1, input_cost_above_128k := some 2,
        input_cost_above_200k := some 5 } 200000 0 = some (2 * 200000) ∧
    calculate_cost
      { input_cost_per_token := some 1, input_cost_above_128k := some 2,
        input_cost_above_200k := some 5 } 128000 0 = some (1 * 128000) := by
  have h := c2_input_rate_selection
    { input_cost_per_token := some 1, input_cost_above_128k := some 2,
      input_cost_above_200k := some 5 } 1 2 rfl rfl
  refine ⟨?_, h.2.2.2.1, h.2.2.2.2.1⟩
  have := h.1 250000 (by omega) (by decide)
  simpa using this

/-- **C3** Output-side rate selection applies the 128k/200k threshold
tests to `input_tokens`, not to `output_tokens`: for every positive
`output_tokens` count `m`, the rate multiplied into the output
contribution is determined by `input_tokens` alone — above-200k output
rate exactly when `input_tokens > 200000` and defined, above-128k output
rate exactly when `input_tokens > 128000` (and not in the previous case)
and defined, standard output rate whenever `input_tokens ≤ 128000`, with
`m` appearing only as the multiplier. -/
theorem c3_output_rate_keyed_on_input (p : ChatPricing) (n m : ℕ)
    (hm : 0 < m)
    (hknown : ¬(p.input_cost_per_token = none ∧
      p.output_cost_per_token = none)) :
    (200000 < n → p.output_cost_above_200k.isSome →
      calculate_cost p n m =
        some ((if 0 < n then ((selectInputRate p n).getD 0) * n else 0) +
          (p.output_cost_above_200k.getD 0) * m)) ∧
    (128000 < n → ¬(200000 < n ∧ p.output_cost_above_200k.isSome) →
      p.output_cost_above_128k.isSome →
      calculate_cost p n m =
        some ((if 0 < n then ((selectInputRate p n).getD 0) * n else 0) +
          (p.output_cost_above_128k.getD 0) * m)) ∧
    (n ≤ 128000 →
      calculate_cost p n m =
        some ((if 0 < n then ((selectInputRate p n).getD 0) * n else 0) +
          ((p.output_cost_per_token.getD 0) * m))) := by
  have hinput : (if 0 < n then
      match selectInputRate p n with
      | some input_cost => input_cost * (n : ℚ)
      | none => 0
      else 0) =
      (if 0 < n then ((selectInputRate p n).getD 0) * n else 0) := by
    rcases hsel : selectInputRate p n with _ | q <;> simp [hsel]
  refine ⟨?_, ?_, ?_⟩
  · intro hn hsome
    rcases hval : p.output_cost_above_200k with _ | q
    · rw [hval] at hsome; simp at hsome
    · simp only [calculate_cost, if_neg hknown, selectOutputRate, hval, hn,
        Option.isSome_some, and_true, if_pos, hm, if_true, hinput]
      simp
  · intro hn hnot hsome
    rcases hval : p.output_cost_above_128k with _ | q
    · rw [hval] at hsome; simp at hsome
    · have hnot' : ¬(200000 < n ∧ p.output_cost_above_200k.isSome) := hnot
      simp only [calculate_cost, if_neg hknown, selectOutputRate,
        if_neg hnot', hval, hn, Option.isSome_some, and_true, if_pos, hm,
        if_true, hinput]
      simp
  · intro hn
    have h1 : ¬(200000 < n ∧ p.output_cost_above_200k.isSome) := by
      rintro ⟨h, -⟩; omega
    have h2 : ¬(128000 < n ∧ p.output_cost_above_128k.isSome) := by
      rintro ⟨h, -⟩; omega
    simp only [calculate_cost, if_neg hknown, selectOutputRate,
      if_neg h1, if_neg h2, hm, if_true, hinput]
    rcases hval : p.output_cost_per_token with _ | q <;> simp [hval]

/-- Witness for C3: input 130000 tokens with an above-128k *output* rate
of 7 charges the 20 output tokens at rate 7, even though
`output_tokens = 20` is far below every threshold. -/
theorem c3_output_rate_keyed_on_input_witness :
    calculate_cost
      { input_cost_per_token := some 1, output_cost_per_token := some 2,
        output_cost_above_128k := some 7 } 130000 20 =
      some ((1 : ℚ) * 130000 + 7 * 20) := by
  have h := (c3_output_rate_keyed_on_input
    { input_cost_per_token := some 1, output_cost_per_token := some 2,
      output_cost_above_128k := some 7 } 130000 20 (by omega)
    (by simp)).2.1 (by omega) (by simp) (by simp)
  rw [h]
  norm_num [selectInputRate]

/-- **C4** A record in which both standard rates are undefined yields an
absent cost for all token counts — "cost unknown", never the number 0. -/
theorem c4_no_standard_rates_absent (p : ChatPricing)
    (hin : p.input_cost_per_token = none)
    (hout : p.output_cost_per_token = none)
    (n m : ℕ) :
    calculate_cost p n m = none := by
  simp [calculate_cost, hin, hout]

/-- Witness for C4: a record whose only pricing is contextual threshold
rates still reports an unknown cost. -/
theorem c4_no_standard_rates_absent_witness :
    calculate_cost
      { input_cost_above_128k := some 1, output_cost_above_200k := some 2 }
      300000 300000 = none :=
  c4_no_standard_rates_absent
    { input_cost_above_128k := some 1, output_cost_above_200k := some 2 }
    rfl rfl 300000 300000

/-- **C10** `calculate_cost` returns `none` exactly when both standard
rates are undefined; whenever at least one standard rate is defined it
returns a number (possibly 0).  In particular, contextual threshold rates
alone never make the cost known. -/
theorem c10_none_iff_no_standard_rates (p : ChatPricing) (n m : ℕ) :
    calculate_cost p n m = none ↔
      (p.input_cost_per_token = none ∧ p.output_cost_per_token = none) := by
  constructor
  · intro h
    by_contra hne
    simp only [calculate_cost, if_neg hne] at h
    exact Option.noConfusion h
  · intro h
    simp [calculate_cost, h.1, h.2]

/-- **C5** An entry whose variant validation fails is excluded from the
resulting registry and recorded with its name and reason in the failure
list, while import continues; concretely, a mapping with one broken
entry (non-numeric cost string) and one fully valid entry yields a
registry containing exactly the valid entry, with the broken one
reported, not raised. -/
theorem c5_parse_failure_excluded (data : List (String × RawEntry))
    (name : String) (e : RawEntry) (msg : String)
    (hmem : (name, e) ∈ data)
    (hmode : e.mode.isSome)
    (hname : name ≠ "sample_spec")
    (hfail : validateEntry e = .error msg)
    (huniq : ∀ e', (name, e') ∈ data → e' = e) :
    (ModelRegistry.from_dict data).get_model name = none ∧
    (name, msg) ∈ from_dict_failed data ∧
    (ModelRegistry.from_dict
        [("broken-model", demoBroken), ("gpt-4", demoValid)]).models =
      [("gpt-4", demoValidConfig)] ∧
    from_dict_failed [("broken-model", demoBroken), ("gpt-4", demoValid)] =
      [("broken-model",
        "unable to parse field input_cost_per_token as a decimal")] := by
  have hnotskip : ¬(e.mode = none ∨ name = "sample_spec") := by
    rintro (h | h)
    · rw [h] at hmode; simp at hmode
    · exact hname h
  refine ⟨?_, ?_, rfl, rfl⟩
  · exact from_dict_go_models_none name data
      (fun e' he' => by
        rw [huniq e' he']
        exact Or.inr (Or.inr ⟨msg, hfail⟩)) [] [] [] rfl
  · exact from_dict_go_failed_mem name e msg hnotskip hfail data hmem [] [] []

/-- Witness for C5: the broken entry of the two-entry demo mapping is
absent from the registry and present in the failure list. -/
theorem c5_parse_failure_excluded_witness :
    (ModelRegistry.from_dict
        [("broken-model", demoBroken), ("gpt-4", demoValid)]).get_model
      "broken-model" = none ∧
    ("broken-model", "unable to parse field input_cost_per_token as a decimal")
      ∈ from_dict_failed
          [("broken-model", demoBroken), ("gpt-4", demoValid)] := by
  have huniq : ∀ e',
      ("broken-model", e') ∈
        [("broken-model", demoBroken), ("gpt-4", demoValid)] →
      e' = demoBroken := by
    intro e' he'
    rcases List.mem_cons.mp he' with heq | he''
    · exact congrArg Prod.snd heq
    · rcases List.mem_cons.mp he'' with heq | he'''
      · have h1 : "broken-model" = "gpt-4" := congrArg Prod.fst heq
        exact absurd h1 (by decide)
      · cases he'''
  have h := c5_parse_failure_excluded
    [("broken-model", demoBroken), ("gpt-4", demoValid)]
    "broken-model" demoBroken
    "unable to parse field input_cost_per_token as a decimal"
    (List.mem_cons_self _ _) rfl (by decide) rfl huniq
  exact ⟨h.1, h.2.1⟩

/-- **C6** An entry lacking the `mode` discriminator, or keyed by the
reserved placeholder name `"sample_spec"`, is skipped: it never appears
in the resulting registry, lands in the separate drop count, and is not
treated as a parse failure. -/
theorem c6_skipped_entries (data : List (String × RawEntry)) (name : String)
    (e : RawEntry) (hmem : (name, e) ∈ data)
    (hall : ∀ e', (name, e') ∈ data →
      (e'.mode = none ∨ name = "sample_spec")) :
    (ModelRegistry.from_dict data).get_model name = none ∧
    name ∈ from_dict_dropped data ∧
    name ∉ (from_dict_failed data).map Prod.fst := by
  refine ⟨?_, ?_, ?_⟩
  · exact from_dict_go_models_none name data
      (fun e' he' => (hall e' he').elim Or.inl (fun h => Or.inr (Or.inl h)))
      [] [] [] rfl
  · exact from_dict_go_dropped_mem name e (hall e hmem) data hmem [] [] []
  · exact from_dict_go_failed_names name data hall [] [] [] (by simp)

/-- Witness for C6: a well-formed entry keyed `"sample_spec"` is
excluded from the registry and counted as dropped. -/
theorem c6_skipped_entries_witness :
    (ModelRegistry.from_dict
        [("sample_spec", demoValid), ("gpt-4", demoValid)]).get_model
      "sample_spec" = none ∧
    "sample_spec" ∈ from_dict_dropped
      [("sample_spec", demoValid), ("gpt-4", demoValid)] := by
  have hall : ∀ e',
      ("sample_spec", e') ∈ [("sample_spec", demoValid), ("gpt-4", demoValid)] →
      (e'.mode = none ∨ "sample_spec" = "sample_spec") :=
    fun e' _ => Or.inr rfl
  have h := c6_skipped_entries
    [("sample_spec", demoValid), ("gpt-4", demoValid)]
    "sample_spec" demoValid (List.mem_cons_self _ _) hall
  exact ⟨h.1, h.2.1⟩

/-- **C7 counterexample** The claim says a record with no comparable
cost field "is selected only when it is the sole candidate".  With two
same-mode records both lacking a comparable cost, `min` over equal
infinite keys returns the first: `modelC` is selected although a second
candidate exists. -/
theorem c7_counterexample :
    ModelRegistry.get_cheapest_model_by_mode
        ⟨[("modelC", noCostModelC), ("modelD", noCostModelD)]⟩ "chat" =
      some ("modelC", noCostModelC) ∧
    get_cost noCostModelC = none ∧
    (ModelRegistry.get_models_by_mode
        ⟨[("modelC", noCostModelC), ("modelD", noCostModelD)]⟩
        "chat").length = 2 :=
  ⟨rfl, rfl, rfl⟩

/-- **C7 (amended)** `cheapest_by_mode` returns absent over an empty
candidate set, and otherwise the first candidate of minimal key, where a
record with no comparable cost field loses every comparison against one
with a cost and is selected only when no candidate has a comparable cost
(ties of costless records go to the first in iteration order); over
{A: 0.01, B: 0.005, C: no cost field} the result is B. -/
theorem c7_cheapest_by_mode_amended (r : ModelRegistry) (mode : String) :
    (r.get_models_by_mode mode = [] →
      r.get_cheapest_model_by_mode mode = none) ∧
    (∀ name m, r.get_cheapest_model_by_mode mode = some (name, m) →
      (name, m) ∈ r.get_models_by_mode mode ∧
      (∀ p ∈ r.get_models_by_mode mode,
        costLt (get_cost p.2) (get_cost m) = false) ∧
      (∀ p ∈ r.get_models_by_mode mode,
        (get_cost p.2).isSome → (get_cost m).isSome)) ∧
    ModelRegistry.get_cheapest_model_by_mode
        ⟨[("A", costModelA), ("B", costModelB), ("C", noCostModelC)]⟩
        "chat" =
      some ("B", costModelB) := by
  refine ⟨?_, ?_, ?_⟩
  · intro h
    unfold ModelRegistry.get_cheapest_model_by_mode minByCost
    rw [h]
  · intro name m hres
    unfold ModelRegistry.get_cheapest_model_by_mode minByCost at hres
    rcases hl : r.get_models_by_mode mode with _ | ⟨x, xs⟩
    · rw [hl] at hres
      exact Option.noConfusion hres
    · rw [hl] at hres
      have hmin : xs.foldl minStep x = (name, m) := Option.some.inj hres
      have hm2 : (xs.foldl minStep x).2 = m := by rw [hmin]
      have hml : ∀ p ∈ x :: xs,
          costLt (get_cost p.2) (get_cost m) = false := by
        intro p hp
        rw [← hm2]
        rcases List.mem_cons.mp hp with hpx | hmem
        · rw [hpx]
          exact foldl_minStep_le xs x x (costLt_irrefl _)
        · exact foldl_minStep_not_beaten xs x p hmem
      refine ⟨?_, hml, ?_⟩
      · rcases foldl_minStep_mem xs x with h | h
        · rw [hmin] at h
          rw [h]
          exact List.mem_cons_self _ _
        · rw [hmin] at h
          exact List.mem_cons_of_mem _ h
      · intro p hp hsome
        rcases hc : get_cost m with _ | q
        · have hlt := hml p hp
          rw [hc] at hlt
          rcases hq : get_cost p.2 with _ | q2
          · rw [hq] at hsome; simp at hsome
          · rw [hq] at hlt; simp [costLt] at hlt
        · rfl
  · norm_num [ModelRegistry.get_cheapest_model_by_mode,
      ModelRegistry.get_models_by_mode, minByCost, minStep, costLt, get_cost,
      costModelA, costModelB, noCostModelC, ModelConfig.mode, List.filter,
      List.foldl]

/-- Witness for C7 (amended): the empty candidate set yields absent, and
B is indeed among the chat candidates the concrete conjunct selects
from. -/
theorem c7_cheapest_by_mode_amended_witness :
    ModelRegistry.get_cheapest_model_by_mode (⟨[]⟩ : ModelRegistry) "chat" =
      none ∧
    ("B", costModelB) ∈ ModelRegistry.get_models_by_mode
      ⟨[("A", costModelA), ("B", costModelB), ("C", noCostModelC)]⟩
      "chat" := by
  constructor
  · exact (c7_cheapest_by_mode_amended ⟨[]⟩ "chat").1 rfl
  · have h := c7_cheapest_by_mode_amended
      ⟨[("A", costModelA), ("B", costModelB), ("C", noCostModelC)]⟩ "chat"
    exact (h.2.1 "B" costModelB h.2.2).1

/-- **C8** The aggregate fetch returns the concatenation, in selection
order, of the model lists of the providers whose fetch succeeds; a
failing provider contributes nothing, and since `get_all_models` is a
total function no failure propagates out of it.  With three sources of
which the middle one throws, the result is exactly the concatenation of
the other two's results. -/
theorem c8_aggregate_concat :
    (∀ (b : Bool) (outcomes : List (Except String (List ModelInfo))),
      get_all_models b outcomes =
        ((outcomes.map (fetch_provider_models b)).filterMap id).flatten) ∧
    (∀ (l1 l3 : List ModelInfo) (msg : String),
      get_all_models true [.ok l1, .error msg, .ok l3] = l1 ++ l3) := by
  have hgen : ∀ (b : Bool) (outcomes : List (Except String (List ModelInfo))),
      get_all_models b outcomes =
        ((outcomes.map (fetch_provider_models b)).filterMap id).flatten := by
    intro b outcomes
    unfold get_all_models
    rw [aggregate_foldl_eq]
    simp
  refine ⟨hgen, ?_⟩
  intro l1 l3 msg
  rw [hgen]
  simp [fetch_provider_models]

/-- **C9 counterexample** The claim says a `get` lookup normalizes the
queried name so a case-differing query still finds the stored record;
in fact the lookup is an exact dictionary `get`: with "GPT-4" stored,
querying "gpt-4" returns absent while "GPT-4" returns the record. -/
theorem c9_counterexample :
    ModelRegistry.get_model ⟨[("GPT-4", gpt4Config)]⟩ "gpt-4" = none ∧
    ModelRegistry.get_model ⟨[("GPT-4", gpt4Config)]⟩ "GPT-4" =
      some gpt4Config :=
  ⟨rfl, rfl⟩

/-- **C9 (amended)** `get_model` performs an exact, case-sensitive
dictionary lookup with no normalization of the queried name: whenever no
stored key equals the query character-for-character, the result is
absent — in particular a query differing from a stored key only in
letter case returns absent rather than that key's record. -/
theorem c9_get_model_exact (r : ModelRegistry) (name : String)
    (h : ∀ k ∈ r.models.map Prod.fst, k ≠ name) :
    r.get_model name = none :=
  dictGet_eq_none_of_keys r.models name h

/-- Witness for C9 (amended): "GPT-4" stored, "gpt-4" queried. -/
theorem c9_get_model_exact_witness :
    ModelRegistry.get_model ⟨[("GPT-4", gpt4Config)]⟩ "gpt-4" = none :=
  c9_get_model_exact ⟨[("GPT-4", gpt4Config)]⟩ "gpt-4" (by decide)

end Tokonomics
